import Mathlib

/-!
Verification of the TMC2209 UART driver (Rust crate `tmc2209-driver`)
against its natural-language specification.

The Rust sources are shallowly embedded: machine integers (`u8`, `u32`,
`usize`) become `Nat` with explicit masking / `% 2^w` where the code
masks or truncates; fallible operations return `Except TmcError`;
the UART transport is modelled as an explicit state (`Uart`) holding a
finite script of write outcomes and read outcomes plus a log of the
bytes the transport has accepted.  `nb::block!` retry loops are total
functions that consume the finite script; an exhausted script is the
`Option.none` outcome (the real code would spin forever waiting).
-/

namespace Tmc2209

/-- Error type for the TMC2209 driver, from `src/errors.rs` (`enum TmcError`). -/
inductive TmcError where
  | PinError
  | SerialError
  | CrcError
  | VerificationError
deriving DecidableEq, Repr

/-- One round of the CRC inner loop from `calc_crc8` in `src/packet.rs`:
`mix = (crc ^ current) & 0x01; crc >>= 1; if mix != 0 { crc ^= 0x8C; } current >>= 1`.
Iterated `n` times on the pair (crc, current). -/
def crc8Rounds : Nat → Nat → Nat → Nat
  | 0, crc, _ => crc
  | n + 1, crc, current =>
    crc8Rounds n
      (if (crc ^^^ current) % 2 ≠ 0 then crc / 2 ^^^ 0x8C else crc / 2)
      (current / 2)

/-- CRC-8 of a byte sequence, from `calc_crc8` in `src/packet.rs`:
accumulator starts at 0; each input byte is processed by 8 rounds of
`crc8Rounds`. -/
def calc_crc8 (bytes : List Nat) : Nat :=
  bytes.foldl (fun crc b => crc8Rounds 8 crc b) 0

/-- One round of the CRC inner loop as the specification words it:
take the accumulator's least-significant bit as a mix flag, shift the
accumulator right by one, XOR the accumulator with 0x8C when the mix
flag was set.  (The spec also shifts the input byte, but after the
whole byte was XORed into the accumulator that shift cannot influence
the result, so the accumulator alone carries the state.) -/
def crc8SpecRounds : Nat → Nat → Nat
  | 0, crc => crc
  | n + 1, crc =>
    crc8SpecRounds n (if crc % 2 ≠ 0 then crc / 2 ^^^ 0x8C else crc / 2)

/-- CRC-8 as the specification describes it: for each input byte, XOR it
into the accumulator, then run 8 rounds of `crc8SpecRounds`. -/
def crc8_spec (bytes : List Nat) : Nat :=
  bytes.foldl (fun crc b => crc8SpecRounds 8 (crc ^^^ b)) 0

/-- One code round, seen on the XOR of the two state components, is one
spec round: the remaining input bits ride along unchanged. -/
lemma crc8Rounds_eq_specRounds_xor (n : Nat) :
    ∀ crc cur, crc8Rounds n crc cur = crc8SpecRounds n (crc ^^^ cur) ^^^ cur / 2 ^ n := by
  induction n with
  | zero =>
    intro crc cur
    simp [crc8Rounds, crc8SpecRounds, Nat.xor_assoc]
  | succ n ih =>
    intro crc cur
    have hstep :
        (if (crc ^^^ cur) % 2 ≠ 0 then crc / 2 ^^^ 0x8C else crc / 2) ^^^ cur / 2
          = (if (crc ^^^ cur) % 2 ≠ 0 then (crc ^^^ cur) / 2 ^^^ 0x8C
             else (crc ^^^ cur) / 2) := by
      rw [Nat.xor_div_two]
      by_cases h : (crc ^^^ cur) % 2 ≠ 0
      · simp only [if_pos h]
        rw [Nat.xor_assoc, Nat.xor_comm 0x8C (cur / 2), ← Nat.xor_assoc]
      · simp only [if_neg h]
    have hdiv : cur / 2 / 2 ^ n = cur / 2 ^ (n + 1) := by
      rw [Nat.div_div_eq_div_mul, pow_succ, mul_comm]
    calc crc8Rounds (n + 1) crc cur
        = crc8Rounds n (if (crc ^^^ cur) % 2 ≠ 0 then crc / 2 ^^^ 0x8C else crc / 2)
            (cur / 2) := rfl
      _ = crc8SpecRounds n
            ((if (crc ^^^ cur) % 2 ≠ 0 then crc / 2 ^^^ 0x8C else crc / 2) ^^^ cur / 2)
            ^^^ cur / 2 / 2 ^ n := ih _ _
      _ = crc8SpecRounds (n + 1) (crc ^^^ cur) ^^^ cur / 2 ^ (n + 1) := by
            rw [hstep, hdiv]; rfl

/-- Per-byte agreement of the code's CRC update with the spec's CRC
update, for 8-bit input bytes. -/
lemma crc8Rounds_eq_spec (crc cur : Nat) (hcur : cur < 256) :
    crc8Rounds 8 crc cur = crc8SpecRounds 8 (crc ^^^ cur) := by
  have h := crc8Rounds_eq_specRounds_xor 8 crc cur
  have hz : cur / 2 ^ 8 = 0 := Nat.div_eq_of_lt hcur
  rw [hz, Nat.xor_zero] at h
  exact h

/-- Fold-level agreement of `calc_crc8` with the spec's CRC, for any
accumulator value and any list of 8-bit bytes. -/
lemma crc8_foldl_eq_spec (bytes : List Nat) :
    ∀ crc, (∀ b ∈ bytes, b < 256) →
      bytes.foldl (fun crc b => crc8Rounds 8 crc b) crc
        = bytes.foldl (fun crc b => crc8SpecRounds 8 (crc ^^^ b)) crc := by
  induction bytes with
  | nil => intro crc _; rfl
  | cons b rest ih =>
    intro crc h
    have hb : b < 256 := h b (List.mem_cons_self b rest)
    have hrest : ∀ x ∈ rest, x < 256 := fun x hx => h x (List.mem_cons_of_mem b hx)
    simp only [List.foldl_cons]
    rw [crc8Rounds_eq_spec crc b hb]
    exact ih _ hrest

/-- Register addresses and GCONF bit, from `src/registers.rs`. -/
def REG_GCONF : Nat := 0x00

/-- Interface transaction counter register address, from `src/registers.rs`. -/
def REG_IFCNT : Nat := 0x02

/-- Current control register address, from `src/registers.rs`. -/
def REG_IHOLD_IRUN : Nat := 0x10

/-- GCONF bit 6 (PDN_UART pin disable), from `src/registers.rs`. -/
def GCONF_PDN_DISABLE : Nat := 1 <<< 6

/-- The 8-byte write packet from `build_write_packet` in `src/packet.rs`:
`[adr_byte, reg_byte, d0, d1, d2, d3, crc, 0]` where `adr_byte` is the
sync nibble 0x05 in the high nibble ORed with the low 4 bits of the
slave address, `reg_byte` clears bit 7, `d0..d3` are the value's bytes
little-endian, and the CRC covers bytes 0..5. -/
def build_write_packet (slave reg_addr value : Nat) : List Nat :=
  let adr_byte := (0x05 <<< 4) ||| (slave &&& 0x0F)
  let reg_byte := reg_addr &&& 0x7F
  let d0 := value &&& 0xFF
  let d1 := (value >>> 8) &&& 0xFF
  let d2 := (value >>> 16) &&& 0xFF
  let d3 := (value >>> 24) &&& 0xFF
  let body := [adr_byte, reg_byte, d0, d1, d2, d3]
  body ++ [calc_crc8 body, 0]

/-- The 4-byte read-request packet from `build_read_packet` in
`src/packet.rs`: `[adr_byte, reg_byte | 0x80, crc, 0]` with the CRC
covering bytes 0..1. -/
def build_read_packet (slave reg_addr : Nat) : List Nat :=
  let adr_byte := (0x05 <<< 4) ||| (slave &&& 0x0F)
  let reg_byte := (reg_addr &&& 0x7F) ||| 0x80
  [adr_byte, reg_byte, calc_crc8 [adr_byte, reg_byte], 0]

/-- Outcome of one attempted byte transmission on the UART: the
transport accepts the byte, signals `nb::Error::WouldBlock`, or fails
hard. -/
inductive WEv where
  | ok
  | wouldBlock
  | err
deriving DecidableEq, Repr

/-- Outcome of one attempted byte reception on the UART: the transport
delivers a byte, signals `nb::Error::WouldBlock`, or fails hard. -/
inductive REv where
  | ok (b : Nat)
  | wouldBlock
  | err
deriving DecidableEq, Repr

/-- Model of the serial transport handed to
`Tmc2209FullUartDiagnosticsAndControl`: a finite script of write
outcomes, a finite script of read outcomes, and the log of bytes the
transport has accepted so far. -/
structure Uart where
  wscript : List WEv
  rscript : List REv
  written : List Nat
deriving DecidableEq, Repr

/-- Semantics of `nb::block!(self.serial.write(&[b]))`: leading
would-block outcomes are consumed and the write is retried; the first
decisive outcome is either acceptance (`some (true, rest)`) or a hard
fault (`some (false, rest)`).  `none` models a script that runs out
while the code is still spinning on would-block. -/
def blockWrite : List WEv → Option (Bool × List WEv)
  | [] => none
  | WEv.ok :: rest => some (true, rest)
  | WEv.wouldBlock :: rest => blockWrite rest
  | WEv.err :: rest => some (false, rest)

/-- Semantics of `nb::block!(self.serial.read(&mut [val]))`: leading
would-block outcomes are retried; on success the call returns the
count of bytes read (always 1) together with the byte the transport
placed in the 1-byte buffer; a hard fault is `Except.error`. -/
def blockRead : List REv → Option (Except Unit (Nat × Nat) × List REv)
  | [] => none
  | REv.ok b :: rest => some (Except.ok (1, b % 256), rest)
  | REv.wouldBlock :: rest => blockRead rest
  | REv.err :: rest => some (Except.error (), rest)

/-- The byte-transmission loop shared by `write_register` and
`read_register` in `src/tmc2209.rs`: each packet byte is sent through
`nb::block!`, a hard fault is mapped to `TmcError::SerialError` and
aborts, and each accepted byte is appended to the transport log. -/
def writeBytes : List Nat → Uart → Option (Except TmcError Unit × Uart)
  | [], u => some (Except.ok (), u)
  | b :: rest, u =>
    match blockWrite u.wscript with
    | none => none
    | some (false, ws) => some (Except.error TmcError.SerialError, { u with wscript := ws })
    | some (true, ws) =>
      writeBytes rest { u with wscript := ws, written := u.written ++ [b] }

/-- The reception loop of `read_register` (`src/tmc2209.rs` lines
344-350): seven reads through `nb::block!`, a hard fault maps to
`TmcError::SerialError`, and `resp[i] = val as u8` stores the *count*
returned by `serial.read` (the delivered byte sits in a temporary
1-byte buffer that the code drops). -/
def recvResp : Nat → List Nat → Uart → Option (Except TmcError (List Nat) × Uart)
  | 0, acc, u => some (Except.ok acc, u)
  | n + 1, acc, u =>
    match blockRead u.rscript with
    | none => none
    | some (Except.error _, rs) =>
      some (Except.error TmcError.SerialError, { u with rscript := rs })
    | some (Except.ok (count, _delivered), rs) =>
      recvResp n (acc ++ [count % 256]) { u with rscript := rs }

/-- The response validation and value extraction of `read_register`
(`src/tmc2209.rs` lines 352-371), in the code's fixed order: slave
address echo, then register echo, then CRC over bytes 0..5 against
byte 6; on success the 32-bit value is assembled little-endian from
bytes 2..5. -/
def validateResponse (slave reg : Nat) (resp : List Nat) : Except TmcError Nat :=
  if (resp.getD 0 0) &&& 0x0F ≠ slave &&& 0x0F then
    Except.error TmcError.VerificationError
  else if (resp.getD 1 0) &&& 0x7F ≠ reg &&& 0x7F then
    Except.error TmcError.VerificationError
  else if calc_crc8 (resp.take 6) ≠ resp.getD 6 0 then
    Except.error TmcError.CrcError
  else
    Except.ok ((resp.getD 2 0) ||| ((resp.getD 3 0) <<< 8) |||
      ((resp.getD 4 0) <<< 16) ||| ((resp.getD 5 0) <<< 24))

/-- `write_register` from `src/tmc2209.rs`: build the 8-byte write
packet and transmit it byte by byte. -/
def write_register (slave reg value : Nat) (u : Uart) :
    Option (Except TmcError Unit × Uart) :=
  writeBytes (build_write_packet slave reg value) u

/-- `read_register` from `src/tmc2209.rs`: transmit the 4-byte read
request, receive 7 bytes into the response buffer, then validate and
extract. -/
def read_register (slave reg : Nat) (u : Uart) :
    Option (Except TmcError Nat × Uart) :=
  match writeBytes (build_read_packet slave reg) u with
  | none => none
  | some (Except.error e, u1) => some (Except.error e, u1)
  | some (Except.ok _, u1) =>
    match recvResp 7 [] u1 with
    | none => none
    | some (Except.error e, u2) => some (Except.error e, u2)
    | some (Except.ok resp, u2) => some (validateResponse slave reg resp, u2)

/-- `set_current` from `src/tmc2209.rs`: reject any field beyond its
bit-width range with `TmcError::VerificationError` before any UART
traffic; otherwise pack IHOLD into bits 4..0, IRUN into bits 12..8 and
IHOLDDELAY into bits 19..16 and write the packed word to IHOLD_IRUN. -/
def set_current (slave irun ihold ihold_delay : Nat) (u : Uart) :
    Option (Except TmcError Unit × Uart) :=
  if irun > 31 ∨ ihold > 31 ∨ ihold_delay > 15 then
    some (Except.error TmcError.VerificationError, u)
  else
    write_register slave REG_IHOLD_IRUN
      ((ihold &&& 0x1F) ||| ((irun &&& 0x1F) <<< 8) ||| ((ihold_delay &&& 0x0F) <<< 16)) u

/-- The liveness decision at the end of `init_uart` (`src/tmc2209.rs`
lines 309-312), as a function of the two IFCNT read results: an
unchanged counter returns `Err(TmcError::SerialError)`. -/
def init_uart_livecheck (ifcnt_before ifcnt_after : Nat) : Except TmcError Unit :=
  if ifcnt_after = ifcnt_before then Except.error TmcError.SerialError
  else Except.ok ()

/-- `init_uart` from `src/tmc2209.rs`: read IFCNT, read GCONF, write
GCONF with PDN_DISABLE set, read IFCNT again, and apply the liveness
check to the two counter values. -/
def init_uart (slave : Nat) (u : Uart) : Option (Except TmcError Unit × Uart) :=
  match read_register slave REG_IFCNT u with
  | none => none
  | some (Except.error e, u1) => some (Except.error e, u1)
  | some (Except.ok ifcnt_before, u1) =>
    match read_register slave REG_GCONF u1 with
    | none => none
    | some (Except.error e, u2) => some (Except.error e, u2)
    | some (Except.ok gconf, u2) =>
      match write_register slave REG_GCONF (gconf ||| GCONF_PDN_DISABLE) u2 with
      | none => none
      | some (Except.error e, u3) => some (Except.error e, u3)
      | some (Except.ok _, u3) =>
        match read_register slave REG_IFCNT u3 with
        | none => none
        | some (Except.error e, u4) => some (Except.error e, u4)
        | some (Except.ok ifcnt_after, u4) =>
          some (init_uart_livecheck ifcnt_before ifcnt_after, u4)

lemma and_mask_15 (x : Nat) : x &&& 0x0F = x % 16 := by
  have h := Nat.and_pow_two_sub_one_eq_mod x 4
  norm_num at h
  exact h

lemma and_mask_31 (x : Nat) : x &&& 0x1F = x % 32 := by
  have h := Nat.and_pow_two_sub_one_eq_mod x 5
  norm_num at h
  exact h

lemma and_mask_127 (x : Nat) : x &&& 0x7F = x % 128 := by
  have h := Nat.and_pow_two_sub_one_eq_mod x 7
  norm_num at h
  exact h

lemma and_mask_255 (x : Nat) : x &&& 0xFF = x % 256 := by
  have h := Nat.and_pow_two_sub_one_eq_mod x 8
  norm_num at h
  exact h

lemma or_eighty (y : Nat) (hy : y < 16) : 80 ||| y = 80 + y := by
  revert hy
  revert y
  decide

lemma or_topbit (y : Nat) (hy : y < 128) : y ||| 128 = y + 128 := by
  revert hy
  revert y
  decide

/-- Unfolding of the write packet into its literal byte list. -/
lemma build_write_packet_eq (slave reg value : Nat) :
    build_write_packet slave reg value =
      [(0x05 <<< 4) ||| (slave &&& 0x0F), reg &&& 0x7F, value &&& 0xFF,
       (value >>> 8) &&& 0xFF, (value >>> 16) &&& 0xFF, (value >>> 24) &&& 0xFF,
       calc_crc8 [(0x05 <<< 4) ||| (slave &&& 0x0F), reg &&& 0x7F, value &&& 0xFF,
         (value >>> 8) &&& 0xFF, (value >>> 16) &&& 0xFF, (value >>> 24) &&& 0xFF],
       0] := rfl

/-- Unfolding of the read packet into its literal byte list. -/
lemma build_read_packet_eq (slave reg : Nat) :
    build_read_packet slave reg =
      [(0x05 <<< 4) ||| (slave &&& 0x0F), (reg &&& 0x7F) ||| 0x80,
       calc_crc8 [(0x05 <<< 4) ||| (slave &&& 0x0F), (reg &&& 0x7F) ||| 0x80],
       0] := rfl

/-- C5. For every slave_id, register, and 32-bit value, the built write
frame is exactly 8 bytes with byte0 = 0x5 in the high nibble OR the
slave id masked to 4 bits, byte1 = the register masked to 7 bits with
the direction bit 0, bytes2..5 = the value little-endian, byte6 = the
checksum of bytes0..5 and byte7 = 0; and for slave_id=0, register=0x10,
value=0x00080810 the frame is [0x50, 0x10, 0x10, 0x08, 0x08, 0x00, crc, 0x00]. -/
theorem build_write_packet_spec (slave reg value : Nat)
    (hs : slave < 256) (hr : reg < 256) (hv : value < 2 ^ 32) :
    (build_write_packet slave reg value).length = 8 ∧
    (build_write_packet slave reg value).getD 0 0 = 0x50 + slave % 16 ∧
    (build_write_packet slave reg value).getD 1 0 = reg % 128 ∧
    (build_write_packet slave reg value).getD 2 0 = value % 256 ∧
    (build_write_packet slave reg value).getD 3 0 = value / 2 ^ 8 % 256 ∧
    (build_write_packet slave reg value).getD 4 0 = value / 2 ^ 16 % 256 ∧
    (build_write_packet slave reg value).getD 5 0 = value / 2 ^ 24 % 256 ∧
    (build_write_packet slave reg value).getD 6 0
      = calc_crc8 ((build_write_packet slave reg value).take 6) ∧
    (build_write_packet slave reg value).getD 7 0 = 0 ∧
    build_write_packet 0 0x10 0x00080810
      = [0x50, 0x10, 0x10, 0x08, 0x08, 0x00,
         calc_crc8 [0x50, 0x10, 0x10, 0x08, 0x08, 0x00], 0] := by
  rw [build_write_packet_eq]
  refine ⟨rfl, ?_, ?_, ?_, ?_, ?_, ?_, rfl, rfl, rfl⟩
  · show (0x05 <<< 4) ||| (slave &&& 0x0F) = 0x50 + slave % 16
    rw [and_mask_15]
    exact or_eighty (slave % 16) (Nat.mod_lt _ (by norm_num))
  · exact and_mask_127 reg
  · exact and_mask_255 value
  · show (value >>> 8) &&& 0xFF = value / 2 ^ 8 % 256
    rw [Nat.shiftRight_eq_div_pow, and_mask_255]
  · show (value >>> 16) &&& 0xFF = value / 2 ^ 16 % 256
    rw [Nat.shiftRight_eq_div_pow, and_mask_255]
  · show (value >>> 24) &&& 0xFF = value / 2 ^ 24 % 256
    rw [Nat.shiftRight_eq_div_pow, and_mask_255]

/-- Closed instantiation of `build_write_packet_spec` at slave 0,
register 0x10, value 0x00080810. -/
theorem build_write_packet_spec_witness :
    (build_write_packet 0 0x10 0x00080810).length = 8 ∧
    (build_write_packet 0 0x10 0x00080810).getD 0 0 = 0x50 + 0 % 16 ∧
    (build_write_packet 0 0x10 0x00080810).getD 1 0 = 0x10 % 128 ∧
    (build_write_packet 0 0x10 0x00080810).getD 2 0 = 0x00080810 % 256 ∧
    (build_write_packet 0 0x10 0x00080810).getD 3 0 = 0x00080810 / 2 ^ 8 % 256 ∧
    (build_write_packet 0 0x10 0x00080810).getD 4 0 = 0x00080810 / 2 ^ 16 % 256 ∧
    (build_write_packet 0 0x10 0x00080810).getD 5 0 = 0x00080810 / 2 ^ 24 % 256 ∧
    (build_write_packet 0 0x10 0x00080810).getD 6 0
      = calc_crc8 ((build_write_packet 0 0x10 0x00080810).take 6) ∧
    (build_write_packet 0 0x10 0x00080810).getD 7 0 = 0 ∧
    build_write_packet 0 0x10 0x00080810
      = [0x50, 0x10, 0x10, 0x08, 0x08, 0x00,
         calc_crc8 [0x50, 0x10, 0x10, 0x08, 0x08, 0x00], 0] :=
  build_write_packet_spec 0 0x10 0x00080810 (by norm_num) (by norm_num) (by norm_num)

/-- C6. For every slave_id and register, the built read-request frame is
exactly 4 bytes with byte0 using the same sync/slave scheme as the
write frame, byte1 = (register masked to 7 bits) OR 0x80, byte2 = the
checksum of bytes0..1, byte3 = 0; and for slave_id=3, register=0x41 the
frame is [0x53, 0xC1, crc, 0x00]. -/
theorem build_read_packet_spec (slave reg : Nat)
    (hs : slave < 256) (hr : reg < 256) :
    (build_read_packet slave reg).length = 4 ∧
    (build_read_packet slave reg).getD 0 0 = 0x50 + slave % 16 ∧
    (build_read_packet slave reg).getD 1 0 = reg % 128 + 0x80 ∧
    (build_read_packet slave reg).getD 2 0
      = calc_crc8 ((build_read_packet slave reg).take 2) ∧
    (build_read_packet slave reg).getD 3 0 = 0 ∧
    build_read_packet 3 0x41
      = [0x53, 0xC1, calc_crc8 [0x53, 0xC1], 0] := by
  rw [build_read_packet_eq]
  refine ⟨rfl, ?_, ?_, rfl, rfl, ?_⟩
  · show (0x05 <<< 4) ||| (slave &&& 0x0F) = 0x50 + slave % 16
    rw [and_mask_15]
    exact or_eighty (slave % 16) (Nat.mod_lt _ (by norm_num))
  · show (reg &&& 0x7F) ||| 0x80 = reg % 128 + 0x80
    rw [and_mask_127]
    exact or_topbit (reg % 128) (Nat.mod_lt _ (by norm_num))
  · rw [build_read_packet_eq]
    decide

/-- Closed instantiation of `build_read_packet_spec` at slave 3,
register 0x41. -/
theorem build_read_packet_spec_witness :
    (build_read_packet 3 0x41).length = 4 ∧
    (build_read_packet 3 0x41).getD 0 0 = 0x50 + 3 % 16 ∧
    (build_read_packet 3 0x41).getD 1 0 = 0x41 % 128 + 0x80 ∧
    (build_read_packet 3 0x41).getD 2 0
      = calc_crc8 ((build_read_packet 3 0x41).take 2) ∧
    (build_read_packet 3 0x41).getD 3 0 = 0 ∧
    build_read_packet 3 0x41 = [0x53, 0xC1, calc_crc8 [0x53, 0xC1], 0] :=
  build_read_packet_spec 3 0x41 (by norm_num) (by norm_num)

/-- C2. For every sequence of 8-bit bytes, `calc_crc8` equals the CRC-8
described by the specification: an 8-bit accumulator starts at 0; each
input byte is XORed into the accumulator and then 8 rounds shift the
accumulator right, conditionally XORing 0x8C when the pre-shift
least-significant bit was set (reflected polynomial 0x8C, seed 0, no
final XOR). -/
theorem calc_crc8_matches_spec (bytes : List Nat) (h : ∀ b ∈ bytes, b < 256) :
    calc_crc8 bytes = crc8_spec bytes :=
  crc8_foldl_eq_spec bytes 0 h

/-- Closed instantiation of `calc_crc8_matches_spec` on the write-frame
example bytes. -/
theorem calc_crc8_matches_spec_witness :
    calc_crc8 [0x50, 0x10, 0x10, 0x08, 0x08, 0x00]
      = crc8_spec [0x50, 0x10, 0x10, 0x08, 0x08, 0x00] :=
  calc_crc8_matches_spec [0x50, 0x10, 0x10, 0x08, 0x08, 0x00] (by decide)

lemma set_current_out_of_range_eq (slave irun ihold ihold_delay : Nat) (u : Uart)
    (h : irun > 31 ∨ ihold > 31 ∨ ihold_delay > 15) :
    set_current slave irun ihold ihold_delay u
      = some (Except.error TmcError.VerificationError, u) := by
  unfold set_current
  rw [if_pos h]

/-- C7. `set_current` validates every field against its fixed bit-width
range before any transport I/O: when irun > 31 or ihold > 31 or
ihold_delay > 15 it returns a parameter-range failure
(`TmcError::VerificationError`) and the transport state is returned
unchanged — zero bytes are sent and the scripts are untouched. -/
theorem set_current_out_of_range (slave irun ihold ihold_delay : Nat) (u : Uart)
    (h : irun > 31 ∨ ihold > 31 ∨ ihold_delay > 15) :
    set_current slave irun ihold ihold_delay u
      = some (Except.error TmcError.VerificationError, u) ∧
    (set_current slave irun ihold ihold_delay u).map (fun p => p.2.written)
      = some u.written := by
  have he := set_current_out_of_range_eq slave irun ihold ihold_delay u h
  exact ⟨he, by rw [he]; rfl⟩

/-- Closed instantiation of `set_current_out_of_range` with a 5-bit
field one past its range (irun = 32) and a transport script able to
accept bytes. -/
theorem set_current_out_of_range_witness :
    set_current 0 32 8 8 ⟨List.replicate 8 WEv.ok, [], []⟩
      = some (Except.error TmcError.VerificationError,
          ⟨List.replicate 8 WEv.ok, [], []⟩) ∧
    (set_current 0 32 8 8 ⟨List.replicate 8 WEv.ok, [], []⟩).map (fun p => p.2.written)
      = some [] :=
  set_current_out_of_range 0 32 8 8 ⟨List.replicate 8 WEv.ok, [], []⟩
    (Or.inl (by norm_num))

/-- C8. For every in-range input, `set_current` packs the hold current
into bits 4..0, the run current into bits 12..8 and the hold delay into
bits 19..16 of a single 32-bit value and writes that value to the
IHOLD_IRUN register (0x10) via `write_register`. -/
theorem set_current_in_range_packs (slave irun ihold ihold_delay : Nat) (u : Uart)
    (h1 : irun ≤ 31) (h2 : ihold ≤ 31) (h3 : ihold_delay ≤ 15) :
    set_current slave irun ihold ihold_delay u
      = write_register slave REG_IHOLD_IRUN
          (ihold ||| (irun <<< 8) ||| (ihold_delay <<< 16)) u ∧
    REG_IHOLD_IRUN = 0x10 := by
  refine ⟨?_, rfl⟩
  unfold set_current
  rw [if_neg (by omega)]
  have e1 : ihold &&& 0x1F = ihold := by
    rw [and_mask_31]; exact Nat.mod_eq_of_lt (by omega)
  have e2 : irun &&& 0x1F = irun := by
    rw [and_mask_31]; exact Nat.mod_eq_of_lt (by omega)
  have e3 : ihold_delay &&& 0x0F = ihold_delay := by
    rw [and_mask_15]; exact Nat.mod_eq_of_lt (by omega)
  rw [e1, e2, e3]

/-- Closed instantiation of `set_current_in_range_packs` at the default
motor configuration (irun 16, ihold 8, delay 8). -/
theorem set_current_in_range_packs_witness :
    set_current 0 16 8 8 ⟨List.replicate 8 WEv.ok, [], []⟩
      = write_register 0 REG_IHOLD_IRUN ((8 : Nat) ||| (16 <<< 8) ||| (8 <<< 16))
          ⟨List.replicate 8 WEv.ok, [], []⟩ ∧
    REG_IHOLD_IRUN = 0x10 :=
  set_current_in_range_packs 0 16 8 8 ⟨List.replicate 8 WEv.ok, [], []⟩
    (by norm_num) (by norm_num) (by norm_num)

lemma validateResponse_mismatch_eq (slave reg : Nat) (resp : List Nat)
    (h : (resp.getD 0 0) &&& 0x0F ≠ slave &&& 0x0F ∨
         (resp.getD 1 0) &&& 0x7F ≠ reg &&& 0x7F) :
    validateResponse slave reg resp = Except.error TmcError.VerificationError := by
  unfold validateResponse
  by_cases hA : (resp.getD 0 0) &&& 0x0F ≠ slave &&& 0x0F
  · rw [if_pos hA]
  · rw [if_neg hA, if_pos (h.resolve_left hA)]

/-- C4. Read-response validation checks the address echo, then the
register echo, then the checksum, short-circuiting at the first
failure: every 7-byte response whose echoed register (low 7 bits of
byte 1) differs from the requested register is rejected as a protocol
mismatch (`TmcError::VerificationError`) and never as a checksum
mismatch (`TmcError::CrcError`), whatever the checksum byte holds. -/
theorem validateResponse_register_mismatch (slave reg : Nat) (resp : List Nat)
    (h7 : resp.length = 7)
    (hmis : (resp.getD 1 0) &&& 0x7F ≠ reg &&& 0x7F) :
    validateResponse slave reg resp = Except.error TmcError.VerificationError ∧
    validateResponse slave reg resp ≠ Except.error TmcError.CrcError := by
  have he := validateResponse_mismatch_eq slave reg resp (Or.inr hmis)
  refine ⟨he, ?_⟩
  rw [he]
  intro hco
  exact absurd (Except.error.inj hco) (by decide)

/-- Closed instantiation of `validateResponse_register_mismatch`: the
echoed register is 0x01 instead of the requested 0x06, and byte 6 is
the correct CRC of bytes 0..5, yet the outcome is the protocol
mismatch, not the checksum mismatch. -/
theorem validateResponse_register_mismatch_witness :
    validateResponse 0 0x06 [0x00, 0x01, 0, 0, 0, 0, calc_crc8 [0x00, 0x01, 0, 0, 0, 0]]
      = Except.error TmcError.VerificationError ∧
    validateResponse 0 0x06 [0x00, 0x01, 0, 0, 0, 0, calc_crc8 [0x00, 0x01, 0, 0, 0, 0]]
      ≠ Except.error TmcError.CrcError :=
  validateResponse_register_mismatch 0 0x06
    [0x00, 0x01, 0, 0, 0, 0, calc_crc8 [0x00, 0x01, 0, 0, 0, 0]]
    rfl (by decide)

/-- C10. An out-of-range `set_current` call and a `read_register`
response whose echoed address or register disagrees with the request
surface as the identical error variant `TmcError::VerificationError`,
so a caller receiving that variant cannot tell the two failure classes
apart. -/
theorem verification_error_conflation
    (slave irun ihold ihold_delay : Nat) (u : Uart)
    (hrange : irun > 31 ∨ ihold > 31 ∨ ihold_delay > 15)
    (slave2 reg2 : Nat) (resp : List Nat)
    (hmis : (resp.getD 0 0) &&& 0x0F ≠ slave2 &&& 0x0F ∨
            (resp.getD 1 0) &&& 0x7F ≠ reg2 &&& 0x7F) :
    (set_current slave irun ihold ihold_delay u).map (fun p => p.1)
      = some (Except.error TmcError.VerificationError) ∧
    validateResponse slave2 reg2 resp = Except.error TmcError.VerificationError := by
  constructor
  · rw [set_current_out_of_range_eq slave irun ihold ihold_delay u hrange]
    rfl
  · exact validateResponse_mismatch_eq slave2 reg2 resp hmis

/-- Closed instantiation of `verification_error_conflation`: irun = 32
out of range on one side, a response echoing register 0x01 instead of
0x06 on the other; both outcomes are `TmcError::VerificationError`. -/
theorem verification_error_conflation_witness :
    (set_current 0 32 8 8 ⟨List.replicate 8 WEv.ok, [], []⟩).map (fun p => p.1)
      = some (Except.error TmcError.VerificationError) ∧
    validateResponse 0 0x06 [0x00, 0x01, 0, 0, 0, 0, 0]
      = Except.error TmcError.VerificationError :=
  verification_error_conflation 0 32 8 8 ⟨List.replicate 8 WEv.ok, [], []⟩
    (Or.inl (by norm_num)) 0 0x06 [0x00, 0x01, 0, 0, 0, 0, 0] (by decide)

/-- C1 (code bug). The reception loop of `read_register` stores the
count returned by `serial.read` into the response buffer, not the
received bytes: on a transport that delivers the seven bytes
[0x05, 0x02, 0xAA, 0xBB, 0xCC, 0xDD, 0x77], the buffer ends up as
[1, 1, 1, 1, 1, 1, 1], which differs from the delivered bytes. -/
theorem recv_buffer_stores_read_counts :
    recvResp 7 []
        ⟨[], [REv.ok 0x05, REv.ok 0x02, REv.ok 0xAA, REv.ok 0xBB,
              REv.ok 0xCC, REv.ok 0xDD, REv.ok 0x77], []⟩
      = some (Except.ok [1, 1, 1, 1, 1, 1, 1], ⟨[], [], []⟩) ∧
    ([1, 1, 1, 1, 1, 1, 1] : List Nat)
      ≠ [0x05, 0x02, 0xAA, 0xBB, 0xCC, 0xDD, 0x77] := by
  constructor
  · rfl
  · decide

/-- C3 (counterexample). The liveness check of `init_uart` surfaces an
unchanged interface counter as `TmcError::SerialError` — the very
variant `write_register` surfaces for a hard transport fault — so the
liveness outcome is not distinct from the transport-fault class. -/
theorem init_uart_liveness_not_distinct :
    init_uart_livecheck 7 7 = Except.error TmcError.SerialError ∧
    write_register 0 0 0 ⟨[WEv.err], [], []⟩
      = some (Except.error TmcError.SerialError, ⟨[], [], []⟩) := by
  constructor
  · rfl
  · rfl

/-- C3 (amended). When the interface counter reads back unchanged, the
liveness check fails with `TmcError::SerialError`: an outcome distinct
from the checksum-mismatch (`CrcError`) and protocol-mismatch
(`VerificationError`) classes, but the same variant the transport-fault
class uses. -/
theorem init_uart_liveness_serial_error (ifcnt_before ifcnt_after : Nat)
    (h : ifcnt_after = ifcnt_before) :
    init_uart_livecheck ifcnt_before ifcnt_after
      = Except.error TmcError.SerialError ∧
    TmcError.SerialError ≠ TmcError.CrcError ∧
    TmcError.SerialError ≠ TmcError.VerificationError := by
  refine ⟨?_, by decide, by decide⟩
  unfold init_uart_livecheck
  rw [if_pos h]

/-- Closed instantiation of `init_uart_liveness_serial_error` at
counter value 7 before and after. -/
theorem init_uart_liveness_serial_error_witness :
    init_uart_livecheck 7 7 = Except.error TmcError.SerialError ∧
    TmcError.SerialError ≠ TmcError.CrcError ∧
    TmcError.SerialError ≠ TmcError.VerificationError :=
  init_uart_liveness_serial_error 7 7 rfl

/-- Removal of all would-block outcomes from a write script. -/
def purgeBlocks : List WEv → List WEv
  | [] => []
  | WEv.wouldBlock :: rest => purgeBlocks rest
  | e :: rest => e :: purgeBlocks rest

lemma blockWrite_purge (s : List WEv) :
    blockWrite (purgeBlocks s)
      = (blockWrite s).map (fun p => (p.1, purgeBlocks p.2)) := by
  induction s with
  | nil => rfl
  | cons e rest ih =>
    cases e with
    | ok => rfl
    | wouldBlock => simpa [purgeBlocks, blockWrite] using ih
    | err => rfl

lemma writeBytes_purge (bytes : List Nat) :
    ∀ s rs w,
      (writeBytes bytes ⟨s, rs, w⟩).map (fun p => (p.1, p.2.rscript, p.2.written))
        = (writeBytes bytes ⟨purgeBlocks s, rs, w⟩).map
            (fun p => (p.1, p.2.rscript, p.2.written)) := by
  induction bytes with
  | nil => intro s rs w; rfl
  | cons b rest ih =>
    intro s rs w
    simp only [writeBytes, blockWrite_purge s]
    cases h : blockWrite s with
    | none => rfl
    | some p =>
      obtain ⟨flag, ws⟩ := p
      cases flag with
      | false => rfl
      | true =>
        simp only [Option.map_some]
        exact ih ws rs (w ++ [b])

lemma writeBytes_abort (bytes : List Nat) :
    ∀ k rest rs w, k < bytes.length →
      writeBytes bytes ⟨List.replicate k WEv.ok ++ WEv.err :: rest, rs, w⟩
        = some (Except.error TmcError.SerialError, ⟨rest, rs, w ++ bytes.take k⟩) := by
  induction bytes with
  | nil =>
    intro k rest rs w hk
    exact absurd hk (by simp)
  | cons b bs ih =>
    intro k rest rs w hk
    cases k with
    | zero =>
      simp only [List.replicate, List.nil_append, List.take_zero, List.append_nil]
      rfl
    | succ k' =>
      have step :
          writeBytes (b :: bs)
              ⟨List.replicate (k' + 1) WEv.ok ++ WEv.err :: rest, rs, w⟩
            = writeBytes bs
                ⟨List.replicate k' WEv.ok ++ WEv.err :: rest, rs, w ++ [b]⟩ := rfl
      rw [step, ih k' rest rs (w ++ [b]) (by simpa using Nat.lt_of_succ_lt_succ hk)]
      simp [List.append_assoc]

lemma writeBytes_success (bytes : List Nat) :
    ∀ rest rs w,
      writeBytes bytes ⟨List.replicate bytes.length WEv.ok ++ rest, rs, w⟩
        = some (Except.ok (), ⟨rest, rs, w ++ bytes⟩) := by
  induction bytes with
  | nil =>
    intro rest rs w
    simp only [List.length_nil, List.replicate, List.nil_append, List.append_nil]
    rfl
  | cons b bs ih =>
    intro rest rs w
    have step :
        writeBytes (b :: bs)
            ⟨List.replicate (b :: bs).length WEv.ok ++ rest, rs, w⟩
          = writeBytes bs ⟨List.replicate bs.length WEv.ok ++ rest, rs, w ++ [b]⟩ := rfl
    rw [step, ih rest rs (w ++ [b])]
    simp [List.append_assoc]

lemma build_write_packet_length (slave reg value : Nat) :
    (build_write_packet slave reg value).length = 8 := rfl

/-- C9. During frame transmission each byte is attempted in order:
would-block outcomes only make the driver retry and are never surfaced
(the result and the accepted-byte log are unchanged if every
would-block outcome is removed from the script); a hard transport
fault while sending byte k aborts the whole operation at once with
`TmcError::SerialError`, having transmitted exactly the first k packet
bytes and retransmitting none of them; and with eight acceptances the
write succeeds with all 8 packet bytes accepted by the transport. -/
theorem write_register_transmission_discipline (slave reg value : Nat) :
    (∀ s rs w,
      (write_register slave reg value ⟨s, rs, w⟩).map
          (fun p => (p.1, p.2.rscript, p.2.written))
        = (write_register slave reg value ⟨purgeBlocks s, rs, w⟩).map
            (fun p => (p.1, p.2.rscript, p.2.written))) ∧
    (∀ k rest rs w, k < 8 →
      write_register slave reg value
          ⟨List.replicate k WEv.ok ++ WEv.err :: rest, rs, w⟩
        = some (Except.error TmcError.SerialError,
            ⟨rest, rs, w ++ (build_write_packet slave reg value).take k⟩)) ∧
    (∀ rest rs w,
      write_register slave reg value ⟨List.replicate 8 WEv.ok ++ rest, rs, w⟩
        = some (Except.ok (), ⟨rest, rs, w ++ build_write_packet slave reg value⟩)) := by
  refine ⟨?_, ?_, ?_⟩
  · intro s rs w
    exact writeBytes_purge (build_write_packet slave reg value) s rs w
  · intro k rest rs w hk
    exact writeBytes_abort (build_write_packet slave reg value) k rest rs w
      (by rw [build_write_packet_length]; exact hk)
  · intro rest rs w
    have h := writeBytes_success (build_write_packet slave reg value) rest rs w
    rwa [build_write_packet_length] at h

/-- Closed instantiation of `write_register_transmission_discipline`:
a script with interleaved would-blocks, a script that hard-faults on
the third byte, and a script of eight acceptances. -/
theorem write_register_transmission_discipline_witness :
    ((write_register 0 2 5 ⟨[WEv.wouldBlock, WEv.ok, WEv.wouldBlock, WEv.err], [], []⟩).map
        (fun p => (p.1, p.2.rscript, p.2.written))
      = (write_register 0 2 5
            ⟨purgeBlocks [WEv.wouldBlock, WEv.ok, WEv.wouldBlock, WEv.err], [], []⟩).map
          (fun p => (p.1, p.2.rscript, p.2.written))) ∧
    (write_register 0 2 5 ⟨List.replicate 2 WEv.ok ++ WEv.err :: [], [], []⟩
      = some (Except.error TmcError.SerialError,
          ⟨[], [], (build_write_packet 0 2 5).take 2⟩)) ∧
    (write_register 0 2 5 ⟨List.replicate 8 WEv.ok ++ [], [], []⟩
      = some (Except.ok (), ⟨[], [], build_write_packet 0 2 5⟩)) :=
  ⟨(write_register_transmission_discipline 0 2 5).1
      [WEv.wouldBlock, WEv.ok, WEv.wouldBlock, WEv.err] [] [],
   (write_register_transmission_discipline 0 2 5).2.1 2 [] [] [] (by norm_num),
   (write_register_transmission_discipline 0 2 5).2.2 [] [] []⟩

end Tmc2209
